import Mathlib

/-!
# Verification of the gameweb storefront core (src/main.py)

Shallow embedding of the Flask storefront's order-lifecycle core:
the session cart, the checkout transition, the order ledger, and the
administrator status-update endpoint.  Each route handler of
`src/main.py` that the claims touch is translated into a pure Lean
function over an explicit server state; external collaborators
(the JSON library, the template renderer, `datetime.now`) are modelled
abstractly, with the values they produce passed in as parameters.

Status strings are kept verbatim from the source:
`"待付款"` = pending_payment, `"已付款"` = paid, `"已完成"` = completed.
-/

namespace Gameweb

/-- A cart line, as built by `add_to_cart` (src/main.py:113-123):
`{'game': ..., 'item': ..., 'price': int(...)}`. -/
structure CartLine where
  game : String
  item : String
  price : Int
deriving Repr, DecidableEq

/-- A wall-clock instant at the granularity the source uses:
`datetime` fields down to seconds (`strftime('%Y%m%d%H%M%S')` ignores
microseconds). -/
structure DateTime where
  year : Nat
  month : Nat
  day : Nat
  hour : Nat
  minute : Nat
  second : Nat
deriving Repr, DecidableEq

/-- The serialized `items_json` blob.  The JSON library is an external
collaborator: `json.dumps` of a cart list always produces a blob that
`json.loads` decodes back to the same list, while a stored blob may
also be arbitrary malformed text on which `json.loads` raises.  The
two cases are modelled by the two constructors. -/
inductive Blob where
  | wellFormed (lines : List CartLine)
  | malformed (raw : String)
deriving Repr, DecidableEq

/-- Model of `json.dumps(cart_list)` (src/main.py:145). -/
def dumps (lines : List CartLine) : Blob := .wellFormed lines

/-- The exception raised by `json.loads` on malformed input. -/
inductive JsonError where
  | decodeError (raw : String)
deriving Repr, DecidableEq

/-- Model of `json.loads(order.items_json)` (src/main.py:110, 192, 208):
decodes a well-formed blob, raises `JSONDecodeError` on anything else. -/
def loads : Blob → Except JsonError (List CartLine)
  | .wellFormed lines => .ok lines
  | .malformed raw => .error (.decodeError raw)

/-- The `Order` model (src/main.py:22-30).  `id` is the autoincrement
primary key, `order_id` the externally visible code.  The `order_id`
column is declared `unique=True` (src/main.py:24); the database
enforces that constraint at commit time, which is modelled in
`checkoutPostCommit` below (a structure field cannot carry a
table-level constraint). -/
structure Order where
  id : Nat
  order_id : String
  username : String
  items_json : Blob
  total_price : Int
  status : String
  created_at : DateTime
  completed_at : Option DateTime
deriving Repr, DecidableEq

/-- An authenticated principal (the `User` model restricted to the
fields the handlers read: src/main.py:16-20). -/
structure User where
  username : String
  is_admin : Bool
deriving Repr, DecidableEq

/-- Server state for one browser session plus the shared order ledger:
`cart?` is `session['cart']` (`none` when the key is absent, as after
`session.pop('cart', None)`); `orders` is the Order table; `nextId`
is the autoincrement counter for `Order.id`. -/
structure ServerState where
  cart? : Option (List CartLine)
  orders : List Order
  nextId : Nat
deriving Repr, DecidableEq

/-- The empty initial state: no session cart, empty Order table. -/
def initialState : ServerState := ⟨none, [], 1⟩

/-- The responses the embedded handlers can produce. -/
inductive Response where
  | loginRedirect
  | redirect (target : String)
  | forbidden
  | render (template : String)
  | renderCheckout (items : List CartLine) (total : Int)
  | renderConfirm (order_id : String) (member : String)
      (items : List CartLine) (total : Int)
  | renderCart (items : List CartLine) (total : Int)
      (past : List (Order × List CartLine))
  | renderAdminOrders (pending completed : List (Order × List CartLine))
deriving Repr, DecidableEq

/-- ASCII digit character for `n % 10`. -/
def digitChar (n : Nat) : Char := Char.ofNat (48 + n % 10)

/-- Fixed-width zero-padded decimal rendering, most significant digit
first; width `w` renders `n % 10^w`.  This is how every field of
`strftime('%Y%m%d%H%M%S')` is rendered (`%Y` four digits, the rest
two digits each). -/
def padNum : Nat → Nat → List Char
  | 0, _ => []
  | w + 1, n => digitChar (n / 10 ^ w) :: padNum w n

/-- Model of `datetime.strftime('%Y%m%d%H%M%S')` (src/main.py:141). -/
def strftimeYmdHMS (t : DateTime) : String :=
  ⟨padNum 4 t.year ++ (padNum 2 t.month ++ (padNum 2 t.day ++
    (padNum 2 t.hour ++ (padNum 2 t.minute ++ padNum 2 t.second))))⟩

/-- Sum of the cart's prices: `sum(item['price'] for item in cart_list)`
(src/main.py:107, 138). -/
def cartTotal (lines : List CartLine) : Int :=
  (lines.map (·.price)).sum

/-- The `/checkout` handler (src/main.py:130-159) under a successful
commit of the insert.  `isPost` distinguishes POST from GET;
`@login_required` is the `none` case of `user?`; `now` is the value
`datetime.now()` would return.  The failure path of
`db.session.commit()` — the UNIQUE constraint on `order_id`
(src/main.py:24) rejecting a duplicate code — is modelled in
`checkoutPostCommit`, which wraps this function. -/
def checkout (isPost : Bool) (user? : Option User) (now : DateTime)
    (st : ServerState) : ServerState × Response :=
  match user? with
  | none => (st, .loginRedirect)
  | some u =>
    let cart_list := st.cart?.getD []
    if cart_list.isEmpty then
      (st, .redirect "cart")
    else
      let total_amount := cartTotal cart_list
      if isPost then
        let oid := strftimeYmdHMS now
        let newOrder : Order :=
          { id := st.nextId
            order_id := oid
            username := u.username
            items_json := dumps cart_list
            total_price := total_amount
            status := "待付款"
            created_at := now
            completed_at := none }
        ({ cart? := none, orders := st.orders ++ [newOrder],
           nextId := st.nextId + 1 },
         .renderConfirm oid u.username cart_list total_amount)
      else
        (st, .renderCheckout cart_list total_amount)

/-- The `/add_to_cart` handler (src/main.py:113-123). -/
def add_to_cart (user? : Option User) (line : CartLine)
    (st : ServerState) : ServerState × Response :=
  match user? with
  | none => (st, .loginRedirect)
  | some _ =>
    ({ st with cart? := some (st.cart?.getD [] ++ [line]) },
     .redirect "referrer")

/-- The `/clear_cart` handler (src/main.py:125-128).  The source has no
`@login_required` decorator and never consults `current_user`, so the
principal parameter is unused. -/
def clear_cart (user? : Option User) (st : ServerState) :
    ServerState × Response :=
  ({ st with cart? := none }, .redirect "cart")

/-- The `/logout` handler (src/main.py:96-101): requires login, pops
the session cart. -/
def logout (user? : Option User) (st : ServerState) :
    ServerState × Response :=
  match user? with
  | none => (st, .loginRedirect)
  | some _ => ({ st with cart? := none }, .redirect "index")

/-- The `/admin/update_order/<id>/<new_status>` handler
(src/main.py:212-225).  `Order.query.get` is lookup by primary key;
the in-place mutation of the fetched row is the by-id map over the
table.  `now` is the value `datetime.now()` would return at the
`completed_at` write. -/
def update_order_status (user? : Option User) (order_db_id : Nat)
    (new_status : String) (now : DateTime) (st : ServerState) :
    ServerState × Response :=
  match user? with
  | none => (st, .loginRedirect)
  | some u =>
    if !u.is_admin then (st, .forbidden)
    else
      match st.orders.find? (fun o => o.id == order_db_id) with
      | none => (st, .redirect "admin_orders")
      | some o =>
        if new_status == "已完成" && o.status != "已付款" then
          (st, .redirect "admin_orders")
        else
          let o' : Order :=
            { o with
              status := new_status
              completed_at :=
                if new_status == "已完成" then some now else o.completed_at }
          ({ st with
             orders := st.orders.map
               (fun p => if p.id == order_db_id then o' else p) },
           .redirect "admin_orders")

/-- Numeric key giving the chronological order of a `DateTime`
(lexicographic on the fields, as SQL compares datetimes). -/
def DateTime.key (t : DateTime) : Nat :=
  ((((t.year * 100 + t.month) * 100 + t.day) * 100 + t.hour) * 100 +
      t.minute) * 100 + t.second

/-- Insert into a list kept descending by `key`. -/
def insertDescBy (key : Order → Nat) (o : Order) :
    List Order → List Order
  | [] => [o]
  | p :: rest =>
    if key p ≤ key o then o :: p :: rest
    else p :: insertDescBy key o rest

/-- `order_by(... .desc())`: sort descending by `key`. -/
def sortDescBy (key : Order → Nat) : List Order → List Order
  | [] => []
  | o :: rest => insertDescBy key o (sortDescBy key rest)

/-- The `for o in ...: o.items_list = json.loads(o.items_json)` loop
(src/main.py:109-110, 191-192, 207-208): decodes each row's blob in
order, raising at the first malformed one. -/
def decorate : List Order → Except JsonError (List (Order × List CartLine))
  | [] => .ok []
  | o :: rest =>
    match loads o.items_json with
    | .error e => .error e
    | .ok lines =>
      match decorate rest with
      | .error e => .error e
      | .ok rest' => .ok ((o, lines) :: rest')

/-- The `/cart` handler (src/main.py:103-111): current cart, its
total, and the principal's past orders newest first, each with its
decoded line items.  An unhandled `json.loads` exception is the
`.error` case. -/
def cartRoute (user? : Option User) (st : ServerState) :
    Except JsonError (ServerState × Response) :=
  match user? with
  | none => .ok (st, .loginRedirect)
  | some u =>
    let items := st.cart?.getD []
    let total := cartTotal items
    let past_orders := sortDescBy (fun o => o.created_at.key)
      (st.orders.filter (fun o => o.username == u.username))
    match decorate past_orders with
    | .error e => .error e
    | .ok past => .ok (st, .renderCart items total past)

/-- The `/admin` dashboard handler (src/main.py:172-177): a non-admin
principal is redirected to the index page. -/
def admin_dashboard (user? : Option User) (st : ServerState) :
    ServerState × Response :=
  match user? with
  | none => (st, .loginRedirect)
  | some u =>
    if !u.is_admin then (st, .redirect "index")
    else (st, .render "admin/dashboard.html")

/-- The `/admin/orders` handler (src/main.py:195-210): a non-admin
principal gets `("權限不足", 403)`; otherwise the pending orders
(status ≠ 已完成, newest first) and the orders completed within the
trailing window (`cutoff` is the value `datetime.now() -
timedelta(days=30)` would give), each row's blob decoded. -/
def admin_orders (user? : Option User) (cutoff : DateTime)
    (st : ServerState) : Except JsonError (ServerState × Response) :=
  match user? with
  | none => .ok (st, .loginRedirect)
  | some u =>
    if !u.is_admin then .ok (st, .forbidden)
    else
      let pending := sortDescBy (fun o => o.created_at.key)
        (st.orders.filter (fun o => o.status != "已完成"))
      let completed := sortDescBy (fun o => (o.completed_at.map DateTime.key).getD 0)
        (st.orders.filter (fun o =>
          o.status == "已完成" &&
            match o.completed_at with
            | some t => cutoff.key ≤ t.key
            | none => false))
      match decorate pending with
      | .error e => .error e
      | .ok pending' =>
        match decorate completed with
        | .error e => .error e
        | .ok completed' => .ok (st, .renderAdminOrders pending' completed')

/-- State effect of POST `/checkout` including the UNIQUE constraint
on `order_id` (src/main.py:24), which the database enforces at
`db.session.commit()` (src/main.py:149).  When the handler reaches the
insert (non-empty cart) while the ledger already holds a row with the
same generated code, commit raises IntegrityError: the row is not
persisted and the handler aborts before `session.pop('cart', None)`
(src/main.py:150), so the state is unchanged.  Otherwise the commit
succeeds and the handler runs to completion (`checkout`). -/
def checkoutPostCommit (u : User) (now : DateTime) (st : ServerState) :
    ServerState :=
  if !(st.cart?.getD []).isEmpty &&
      st.orders.any (fun o => o.order_id == strftimeYmdHMS now) then
    st
  else
    (checkout true (some u) now st).1

/-- One state-mutating request against the server: the operations of
the checkout/lifecycle core plus the cart-session operations. -/
inductive Op where
  | addToCart (user : User) (line : CartLine)
  | clearCart (user? : Option User)
  | logoutOp (user : User)
  | checkoutGet (user : User) (now : DateTime)
  | checkoutPost (user : User) (now : DateTime)
  | updateStatus (user : User) (order_db_id : Nat) (new_status : String)
      (now : DateTime)

/-- State effect of one request (the state component of the matching
handler). -/
def Op.step : Op → ServerState → ServerState
  | .addToCart u l, st => (add_to_cart (some u) l st).1
  | .clearCart u?, st => (clear_cart u? st).1
  | .logoutOp u, st => (logout (some u) st).1
  | .checkoutGet u now, st => (checkout false (some u) now st).1
  | .checkoutPost u now, st => checkoutPostCommit u now st
  | .updateStatus u oid s now, st =>
      (update_order_status (some u) oid s now st).1

/-- States reachable from the empty store by any sequence of
requests. -/
inductive Reachable : ServerState → Prop where
  | init : Reachable initialState
  | next (op : Op) {st : ServerState} :
      Reachable st → Reachable (op.step st)

/-- Position of a status label on the fixed lifecycle path
pending_payment → paid → completed (labels off the path get a sentinel
past the end). -/
def statusRank (s : String) : Nat :=
  if s = "待付款" then 0
  else if s = "已付款" then 1
  else if s = "已完成" then 2
  else 3

/-! Concrete principals, cart lines, instants and request traces used
to evaluate the handlers on explicit inputs. -/

/-- A non-admin customer. -/
def alice : User := ⟨"alice", false⟩

/-- The administrator. -/
def adminU : User := ⟨"admin", true⟩

/-- A sample cart line priced 100. -/
def l100 : CartLine := ⟨"g", "i", 100⟩

/-- A sample instant: 2024-01-02 03:04:05. -/
def t0 : DateTime := ⟨2024, 1, 2, 3, 4, 5⟩

/-- alice puts one line in her cart. -/
def s1 : ServerState := (Op.addToCart alice l100).step initialState

/-- alice checks out at `t0`: order 1 is created. -/
def s2 : ServerState := (Op.checkoutPost alice t0).step s1

/-- alice refills her cart. -/
def s3 : ServerState := (Op.addToCart alice l100).step s2

/-- alice attempts a second checkout within the same second `t0`: the
generated code collides with order 1's, the UNIQUE constraint makes
the commit fail, and the state is unchanged (still `s3`). -/
def s4 : ServerState := (Op.checkoutPost alice t0).step s3

/-- The admin marks order 1 paid. -/
def u1 : ServerState :=
  (Op.updateStatus adminU 1 "已付款" ⟨2024, 1, 2, 3, 4, 6⟩).step s2

/-- The admin marks order 1 completed. -/
def u2 : ServerState :=
  (Op.updateStatus adminU 1 "已完成" ⟨2024, 1, 2, 3, 4, 7⟩).step u1

/-- The admin overrides order 1 back to paid. -/
def u3 : ServerState :=
  (Op.updateStatus adminU 1 "已付款" ⟨2024, 1, 2, 3, 4, 8⟩).step u2

/-- Order 1 as created by the checkout in `s2`. -/
def o1 : Order :=
  ⟨1, "20240102030405", "alice", dumps [l100], 100, "待付款", t0, none⟩

/-- A ledger holding one order whose stored blob is malformed. -/
def stBad : ServerState :=
  ⟨none, [⟨1, "x", "alice", .malformed "oops", 0, "待付款", t0, none⟩], 2⟩

theorem reachable_s2 : Reachable s2 :=
  Reachable.next _ (Reachable.next _ Reachable.init)

theorem reachable_s4 : Reachable s4 :=
  Reachable.next _ (Reachable.next _ reachable_s2)

theorem reachable_u2 : Reachable u2 :=
  Reachable.next _ (Reachable.next _ reachable_s2)

theorem reachable_u3 : Reachable u3 :=
  Reachable.next _ reachable_u2

/-- C1: for every non-empty cart, a successful checkout creates
exactly one new Order whose `total_price` is the sum of the cart
lines' prices, whose line items are the serialized snapshot of the
cart's line sequence, whose initial status is pending_payment
(待付款), and the cart session is empty immediately afterwards. -/
theorem checkout_nonempty_creates_single_order
    (u : User) (now : DateTime) (st : ServerState)
    (h : st.cart?.getD [] ≠ []) :
    ∃ o : Order,
      (checkout true (some u) now st).1.orders = st.orders ++ [o] ∧
      o.total_price = cartTotal (st.cart?.getD []) ∧
      o.items_json = dumps (st.cart?.getD []) ∧
      o.status = "待付款" ∧
      o.completed_at = none ∧
      o.username = u.username ∧
      (checkout true (some u) now st).1.cart? = none := by
  have hne : (st.cart?.getD []).isEmpty = false := by
    simpa [List.isEmpty_iff] using h
  refine ⟨{ id := st.nextId, order_id := strftimeYmdHMS now,
            username := u.username, items_json := dumps (st.cart?.getD []),
            total_price := cartTotal (st.cart?.getD []), status := "待付款",
            created_at := now, completed_at := none },
    ?_, rfl, rfl, rfl, rfl, rfl, ?_⟩ <;> simp [checkout, hne]

theorem checkout_nonempty_creates_single_order_witness :
    ((⟨some [l100], [], 1⟩ : ServerState).cart?.getD [] ≠ []) ∧
      (∃ o : Order,
        (checkout true (some alice) t0 ⟨some [l100], [], 1⟩).1.orders =
          (⟨some [l100], [], 1⟩ : ServerState).orders ++ [o] ∧
        o.total_price = cartTotal ((⟨some [l100], [], 1⟩ : ServerState).cart?.getD []) ∧
        o.items_json = dumps ((⟨some [l100], [], 1⟩ : ServerState).cart?.getD []) ∧
        o.status = "待付款" ∧
        o.completed_at = none ∧
        o.username = alice.username ∧
        (checkout true (some alice) t0 ⟨some [l100], [], 1⟩).1.cart? = none) :=
  ⟨by decide,
   checkout_nonempty_creates_single_order alice t0 ⟨some [l100], [], 1⟩ (by decide)⟩

/-- C2: an administrator request setting an order's status to 已完成
(completed) is rejected without any mutation and without an error
(plain redirect, whole state unchanged) whenever the order's current
status is not exactly 已付款 (paid); this covers both the direct
pending_payment → completed attempt and a repeated completed request,
which therefore cannot write a second `completed_at` timestamp. -/
theorem update_completed_guard_rejects
    (u : User) (oid : Nat) (now : DateTime) (st : ServerState) (o : Order)
    (hadmin : u.is_admin = true)
    (hfind : st.orders.find? (fun p => p.id == oid) = some o)
    (hstat : o.status ≠ "已付款") :
    update_order_status (some u) oid "已完成" now st =
      (st, .redirect "admin_orders") := by
  simp [update_order_status, hadmin, hfind, hstat]

theorem update_completed_guard_rejects_witness :
    adminU.is_admin = true ∧
      s2.orders.find? (fun p => p.id == 1) = some o1 ∧
      o1.status ≠ "已付款" ∧
      update_order_status (some adminU) 1 "已完成" t0 s2 =
        (s2, .redirect "admin_orders") :=
  ⟨rfl, by decide, by decide,
   update_completed_guard_rejects adminU 1 t0 s2 o1 rfl (by decide) (by decide)⟩

/-- C5: checkout with an empty cart (the session key absent or the
stored list empty) fails with a redirect to the cart view, creates no
Order, and leaves the whole state unchanged — for GET and POST
alike. -/
theorem checkout_empty_cart_noop
    (isPost : Bool) (u : User) (now : DateTime) (st : ServerState)
    (h : st.cart?.getD [] = []) :
    checkout isPost (some u) now st = (st, .redirect "cart") := by
  simp [checkout, h]

theorem checkout_empty_cart_noop_witness :
    (initialState.cart?.getD [] = []) ∧
      checkout true (some alice) t0 initialState =
        (initialState, .redirect "cart") :=
  ⟨by decide, checkout_empty_cart_noop true alice t0 initialState (by decide)⟩

/-- C7: the `/clear_cart` route has no `@login_required` decorator, so
a request without any authenticated principal still clears the
session cart — contradicting the requirement that every cart
operation needs an authenticated principal.  Evaluated at the failing
input (no principal, a cart holding one line) and stated generally. -/
theorem clear_cart_unauthenticated_mutates :
    clear_cart none ⟨some [l100], [], 1⟩ = (⟨none, [], 1⟩, .redirect "cart") ∧
      (⟨some [l100], [], 1⟩ : ServerState) ≠ (⟨none, [], 1⟩ : ServerState) ∧
      ∀ st : ServerState,
        clear_cart none st = ({ st with cart? := none }, .redirect "cart") :=
  ⟨by decide, by decide, fun _ => rfl⟩

/-- C10: an administrator status-update naming an order id absent from
the ledger leaves the state (hence every order) unchanged and returns
a plain redirect, raising no error. -/
theorem update_unknown_order_noop
    (u : User) (oid : Nat) (s : String) (now : DateTime) (st : ServerState)
    (hadmin : u.is_admin = true)
    (habs : ∀ o ∈ st.orders, o.id ≠ oid) :
    update_order_status (some u) oid s now st =
      (st, .redirect "admin_orders") := by
  have hfind : st.orders.find? (fun o => o.id == oid) = none := by
    rw [List.find?_eq_none]
    intro o ho
    simpa using habs o ho
  simp [update_order_status, hadmin, hfind]

theorem update_unknown_order_noop_witness :
    adminU.is_admin = true ∧
      (∀ o ∈ s2.orders, o.id ≠ 99) ∧
      update_order_status (some adminU) 99 "已付款" t0 s2 =
        (s2, .redirect "admin_orders") :=
  ⟨rfl, by decide,
   update_unknown_order_noop adminU 99 "已付款" t0 s2 rfl (by decide)⟩

/-- C3 counterexample: after checkout → paid → completed → paid (the
last write is an unconditional administrator override), the reachable
ledger holds an order whose status is not 已完成 while `completed_at`
is still set — refuting "completed_at is present iff status is
completed". -/
theorem completed_at_iff_counterexample :
    Reachable u3 ∧
      ∃ o ∈ u3.orders, o.status ≠ "已完成" ∧ o.completed_at ≠ none :=
  ⟨reachable_u3, by decide⟩

/-- C6 counterexample: from the reachable state in which order 1 is
已完成 (completed), the administrator request "已付款" is accepted and
moves the order back to paid — a strictly earlier point on the fixed
path, refuting monotonicity. -/
theorem status_revert_counterexample :
    Reachable u2 ∧
      (∃ o ∈ u2.orders, o.id = 1 ∧ o.status = "已完成") ∧
      (∃ o ∈ ((Op.updateStatus adminU 1 "已付款" ⟨2024, 1, 2, 3, 4, 8⟩).step
          u2).orders,
        o.id = 1 ∧ o.status = "已付款" ∧
          statusRank "已付款" < statusRank "已完成") :=
  ⟨reachable_u2, by decide, by decide⟩

/-- C8 counterexample: the dashboard turns a non-admin principal away
with `redirect(url_for('index'))` — the same redirect shape a
successful request produces, not an authorization error — refuting
"every admin-only operation returns an authorization error, not a
redirect-as-success". -/
theorem admin_dashboard_redirect_counterexample :
    admin_dashboard (some alice) initialState =
        (initialState, .redirect "index") ∧
      Response.redirect "index" ≠ Response.forbidden :=
  ⟨by decide, by decide⟩

/-- C9 counterexample: with a stored order whose `items_json` blob is
malformed, both listing routes propagate the `json.loads` exception
(the request crashes) instead of returning any structured-error
response. -/
theorem malformed_blob_crash_counterexample :
    cartRoute (some alice) stBad = .error (.decodeError "oops") ∧
      admin_orders (some adminU) t0 stBad = .error (.decodeError "oops") :=
  ⟨rfl, rfl⟩

/-- Order 1 as it stands in `u2`: completed, with the completion
instant recorded. -/
def o1c : Order :=
  ⟨1, "20240102030405", "alice", dumps [l100], 100, "已完成", t0,
    some ⟨2024, 1, 2, 3, 4, 7⟩⟩

/-- C6 (amended): the only guarded transition is the write of 已完成,
which requires the current status to be exactly 已付款; every other
administrator-requested status write — including writes back to an
earlier status on the path — is applied unconditionally to the named
order. -/
theorem update_status_guard_characterization
    (u : User) (oid : Nat) (s : String) (now : DateTime)
    (st : ServerState) (o : Order)
    (hadmin : u.is_admin = true)
    (hfind : st.orders.find? (fun p => p.id == oid) = some o) :
    (s = "已完成" ∧ o.status ≠ "已付款" →
      update_order_status (some u) oid s now st =
        (st, .redirect "admin_orders")) ∧
    (s ≠ "已完成" ∨ o.status = "已付款" →
      (update_order_status (some u) oid s now st).1.orders =
        st.orders.map (fun p =>
          if p.id == oid then
            { o with
              status := s
              completed_at :=
                if s == "已完成" then some now else o.completed_at }
          else p)) := by
  constructor
  · rintro ⟨hs, ho⟩
    subst hs
    simp [update_order_status, hadmin, hfind, ho]
  · intro hcase
    have hguard : (s == "已完成" && o.status != "已付款") = false := by
      rcases hcase with h | h <;> simp [h]
    simp [update_order_status, hadmin, hfind, hguard]

theorem update_status_guard_characterization_witness :
    adminU.is_admin = true ∧
      u2.orders.find? (fun p => p.id == 1) = some o1c ∧
      (("已付款" : String) = "已完成" ∧ o1c.status ≠ "已付款" →
        update_order_status (some adminU) 1 "已付款" ⟨2024, 1, 2, 3, 4, 8⟩ u2 =
          (u2, .redirect "admin_orders")) ∧
      (("已付款" : String) ≠ "已完成" ∨ o1c.status = "已付款" →
        (update_order_status (some adminU) 1 "已付款" ⟨2024, 1, 2, 3, 4, 8⟩
            u2).1.orders =
          u2.orders.map (fun p =>
            if p.id == 1 then
              { o1c with
                status := "已付款"
                completed_at :=
                  if ("已付款" : String) == "已完成" then
                    some ⟨2024, 1, 2, 3, 4, 8⟩
                  else o1c.completed_at }
            else p)) :=
  ⟨rfl, by decide,
   update_status_guard_characterization adminU 1 "已付款" ⟨2024, 1, 2, 3, 4, 8⟩
     u2 o1c rfl (by decide)⟩

/-- C8 (amended): admin-only operations other than the dashboard
answer an authenticated non-admin with the 403 authorization error,
which is distinguishable from the not-logged-in redirect, and the
ledger is unaffected; the dashboard instead redirects to the index
(also without touching the ledger). -/
theorem admin_auth_distinguished
    (u : User) (st : ServerState) (cutoff now : DateTime)
    (oid : Nat) (s : String)
    (h : u.is_admin = false) :
    admin_orders (some u) cutoff st = .ok (st, .forbidden) ∧
    admin_orders none cutoff st = .ok (st, .loginRedirect) ∧
    Response.forbidden ≠ Response.loginRedirect ∧
    update_order_status (some u) oid s now st = (st, .forbidden) ∧
    admin_dashboard (some u) st = (st, .redirect "index") := by
  refine ⟨?_, rfl, by decide, ?_, ?_⟩ <;>
    simp [admin_orders, update_order_status, admin_dashboard, h]

theorem admin_auth_distinguished_witness :
    alice.is_admin = false ∧
      (admin_orders (some alice) t0 s2 = .ok (s2, .forbidden) ∧
        admin_orders none t0 s2 = .ok (s2, .loginRedirect) ∧
        Response.forbidden ≠ Response.loginRedirect ∧
        update_order_status (some alice) 1 "已完成" t0 s2 = (s2, .forbidden) ∧
        admin_dashboard (some alice) s2 = (s2, .redirect "index")) :=
  ⟨rfl, admin_auth_distinguished alice s2 t0 t0 1 "已完成" rfl⟩

/-- C3 (amended): in every reachable state, an order whose status is
已完成 has `completed_at` set.  (The converse direction of the claimed
iff fails, and `completed_at` can be rewritten: see the
counterexample trace.) -/
theorem reachable_completed_has_timestamp
    {st : ServerState} (h : Reachable st) :
    ∀ o ∈ st.orders, o.status = "已完成" → o.completed_at ≠ none := by
  induction h with
  | init => intro o ho; simp [initialState] at ho
  | next op h ih =>
    cases op with
    | addToCart u l =>
      intro o ho
      exact ih o (by simpa [Op.step, add_to_cart] using ho)
    | clearCart u? =>
      intro o ho
      exact ih o (by simpa [Op.step, clear_cart] using ho)
    | logoutOp u =>
      intro o ho
      exact ih o (by simpa [Op.step, logout] using ho)
    | checkoutGet u now =>
      intro o ho
      simp only [Op.step, checkout] at ho
      split at ho <;> exact ih o ho
    | checkoutPost u now =>
      intro o ho hstat
      simp only [Op.step, checkoutPostCommit] at ho
      split at ho
      · exact ih o ho hstat
      · simp only [checkout] at ho
        split at ho
        · exact ih o ho hstat
        · rcases List.mem_append.mp ho with h1 | h2
          · exact ih o h1 hstat
          · simp only [List.mem_singleton] at h2
            subst h2
            simp at hstat
    | updateStatus u oid s now =>
      intro o ho hstat
      simp only [Op.step, update_order_status] at ho
      split at ho
      · exact ih o ho hstat
      · split at ho
        · exact ih o ho hstat
        · split at ho
          · exact ih o ho hstat
          · rcases List.mem_map.mp ho with ⟨p, hp, rfl⟩
            by_cases hc : (p.id == oid) = true
            · rw [if_pos hc] at hstat ⊢
              dsimp at hstat ⊢
              subst hstat
              simp
            · rw [if_neg hc] at hstat ⊢
              exact ih p hp hstat

theorem reachable_completed_has_timestamp_witness :
    Reachable u2 ∧ o1c ∈ u2.orders ∧ o1c.status = "已完成" ∧
      o1c.completed_at ≠ none :=
  ⟨reachable_u2, by decide, by decide,
   reachable_completed_has_timestamp reachable_u2 o1c (by decide) (by decide)⟩

theorem mem_insertDescBy {key : Order → Nat} {o a : Order} :
    ∀ {l : List Order}, a ∈ insertDescBy key o l ↔ a = o ∨ a ∈ l := by
  intro l
  induction l with
  | nil => simp [insertDescBy]
  | cons p rest ih =>
    simp only [insertDescBy]
    split
    · simp [List.mem_cons]
    · simp only [List.mem_cons, ih]
      tauto

theorem mem_sortDescBy {key : Order → Nat} {a : Order} :
    ∀ {l : List Order}, a ∈ sortDescBy key l ↔ a ∈ l := by
  intro l
  induction l with
  | nil => simp [sortDescBy]
  | cons p rest ih =>
    simp only [sortDescBy, mem_insertDescBy, ih, List.mem_cons]

theorem decorate_error_of_mem {l : List Order} {o : Order} (hm : o ∈ l)
    (hb : ∃ e0, loads o.items_json = .error e0) :
    ∃ e, decorate l = .error e := by
  induction l with
  | nil => simp at hm
  | cons p rest ih =>
    rcases List.mem_cons.mp hm with rfl | hmem
    · obtain ⟨e0, he⟩ := hb
      exact ⟨e0, by simp [decorate, he]⟩
    · cases hp : loads p.items_json with
      | error e => exact ⟨e, by simp [decorate, hp]⟩
      | ok lines =>
        obtain ⟨e, he⟩ := ih hmem
        exact ⟨e, by simp [decorate, hp, he]⟩

/-- C9 (amended): when a principal's order history contains an order
whose stored `items_json` blob is malformed, the `/cart` listing does
not return any response: the `json.loads` exception propagates
uncaught and the request fails.  No structured error is surfaced to
the caller. -/
theorem cart_listing_malformed_raises
    (u : User) (st : ServerState) (o : Order) (raw : String)
    (hmem : o ∈ st.orders) (hown : o.username = u.username)
    (hbad : o.items_json = .malformed raw) :
    ∃ e, cartRoute (some u) st = .error e := by
  have hload : ∃ e0, loads o.items_json = .error e0 :=
    ⟨.decodeError raw, by simp [hbad, loads]⟩
  have hf : o ∈ st.orders.filter (fun p => p.username == u.username) :=
    List.mem_filter.mpr ⟨hmem, by simp [hown]⟩
  have hs : o ∈ sortDescBy (fun p => p.created_at.key)
      (st.orders.filter (fun p => p.username == u.username)) :=
    mem_sortDescBy.mpr hf
  obtain ⟨e, he⟩ := decorate_error_of_mem hs hload
  exact ⟨e, by simp [cartRoute, he]⟩

/-- The malformed order stored in `stBad`. -/
def oBad : Order := ⟨1, "x", "alice", .malformed "oops", 0, "待付款", t0, none⟩

theorem cart_listing_malformed_raises_witness :
    oBad ∈ stBad.orders ∧
      oBad.username = alice.username ∧
      oBad.items_json = .malformed "oops" ∧
      ∃ e, cartRoute (some alice) stBad = .error e :=
  ⟨by decide, by decide, by decide,
   cart_listing_malformed_raises alice stBad oBad "oops" (by decide)
     (by decide) (by decide)⟩

theorem digit_ofNat_inj :
    ∀ a < 10, ∀ b < 10, Char.ofNat (48 + a) = Char.ofNat (48 + b) → a = b := by
  decide

theorem digitChar_eq_mod {a b : Nat} (h : digitChar a = digitChar b) :
    a % 10 = b % 10 := by
  unfold digitChar at h
  exact digit_ofNat_inj _ (Nat.mod_lt _ (by norm_num)) _
    (Nat.mod_lt _ (by norm_num)) h

theorem padNum_length (w : Nat) : ∀ n, (padNum w n).length = w := by
  induction w with
  | zero => intro n; rfl
  | succ w ih => intro n; simp [padNum, ih]

theorem mod_pow_succ_decomp (a w : Nat) :
    a % 10 ^ (w + 1) = 10 ^ w * (a / 10 ^ w % 10) + a % 10 ^ w := by
  have hpos : 0 < (10 : Nat) ^ w := pow_pos (by norm_num) w
  have hr : a % 10 ^ w < 10 ^ w := Nat.mod_lt _ hpos
  have hq9 : a / 10 ^ w % 10 < 10 := Nat.mod_lt _ (by norm_num)
  have ha : a = 10 ^ (w + 1) * (a / 10 ^ w / 10) +
      (10 ^ w * (a / 10 ^ w % 10) + a % 10 ^ w) := by
    have h1 : 10 ^ w * (a / 10 ^ w) + a % 10 ^ w = a :=
      Nat.div_add_mod a (10 ^ w)
    have h2 : 10 * (a / 10 ^ w / 10) + a / 10 ^ w % 10 = a / 10 ^ w :=
      Nat.div_add_mod (a / 10 ^ w) 10
    calc a = 10 ^ w * (a / 10 ^ w) + a % 10 ^ w := h1.symm
      _ = 10 ^ w * (10 * (a / 10 ^ w / 10) + a / 10 ^ w % 10) + a % 10 ^ w := by
          rw [h2]
      _ = 10 ^ (w + 1) * (a / 10 ^ w / 10) +
            (10 ^ w * (a / 10 ^ w % 10) + a % 10 ^ w) := by ring
  conv_lhs => rw [ha]
  rw [Nat.mul_add_mod]
  apply Nat.mod_eq_of_lt
  calc 10 ^ w * (a / 10 ^ w % 10) + a % 10 ^ w
      < 10 ^ w * (a / 10 ^ w % 10) + 10 ^ w := Nat.add_lt_add_left hr _
    _ = 10 ^ w * (a / 10 ^ w % 10 + 1) := by ring
    _ ≤ 10 ^ w * 10 := Nat.mul_le_mul_left _ (by omega)
    _ = 10 ^ (w + 1) := by ring

theorem padNum_eq_mod :
    ∀ (w a b : Nat), padNum w a = padNum w b → a % 10 ^ w = b % 10 ^ w := by
  intro w
  induction w with
  | zero => intro a b _; simp [Nat.mod_one]
  | succ w ih =>
    intro a b h
    simp only [padNum, List.cons.injEq] at h
    have h1 := digitChar_eq_mod h.1
    have h2 := ih a b h.2
    rw [mod_pow_succ_decomp, mod_pow_succ_decomp, h1, h2]

theorem strftime_inj (t1 t2 : DateTime)
    (hy1 : t1.year < 10000) (hmo1 : t1.month < 100) (hd1 : t1.day < 100)
    (hh1 : t1.hour < 100) (hmi1 : t1.minute < 100) (hs1 : t1.second < 100)
    (hy2 : t2.year < 10000) (hmo2 : t2.month < 100) (hd2 : t2.day < 100)
    (hh2 : t2.hour < 100) (hmi2 : t2.minute < 100) (hs2 : t2.second < 100)
    (h : strftimeYmdHMS t1 = strftimeYmdHMS t2) : t1 = t2 := by
  unfold strftimeYmdHMS at h
  have hl := congrArg String.data h
  simp only at hl
  obtain ⟨e1, hl⟩ := List.append_inj hl (by rw [padNum_length, padNum_length])
  obtain ⟨e2, hl⟩ := List.append_inj hl (by rw [padNum_length, padNum_length])
  obtain ⟨e3, hl⟩ := List.append_inj hl (by rw [padNum_length, padNum_length])
  obtain ⟨e4, hl⟩ := List.append_inj hl (by rw [padNum_length, padNum_length])
  obtain ⟨e5, e6⟩ := List.append_inj hl (by rw [padNum_length, padNum_length])
  have hy := padNum_eq_mod 4 _ _ e1
  have hmo := padNum_eq_mod 2 _ _ e2
  have hd := padNum_eq_mod 2 _ _ e3
  have hh := padNum_eq_mod 2 _ _ e4
  have hmi := padNum_eq_mod 2 _ _ e5
  have hs := padNum_eq_mod 2 _ _ e6
  norm_num at hy hmo hd hh hmi hs
  have hy' : t1.year = t2.year := by omega
  have hmo' : t1.month = t2.month := by omega
  have hd' : t1.day = t2.day := by omega
  have hh' : t1.hour = t2.hour := by omega
  have hmi' : t1.minute = t2.minute := by omega
  have hs' : t1.second = t2.second := by omega
  calc t1 = ⟨t1.year, t1.month, t1.day, t1.hour, t1.minute, t1.second⟩ := rfl
    _ = ⟨t2.year, t2.month, t2.day, t2.hour, t2.minute, t2.second⟩ := by
        rw [hy', hmo', hd', hh', hmi', hs']
    _ = t2 := rfl

theorem nodup_map_of_id_preserved {l : List Order} {f : Order → Order}
    (hf : ∀ p, (f p).id = p.id)
    (h : (l.map (fun o => o.id)).Nodup) :
    ((l.map f).map (fun o => o.id)).Nodup := by
  rw [List.map_map]
  have hcomp : ((fun o : Order => o.id) ∘ f) = fun o : Order => o.id :=
    funext fun p => hf p
  rw [hcomp]
  exact h

theorem reachable_ids_invariant {st : ServerState} (h : Reachable st) :
    (∀ o ∈ st.orders, o.id < st.nextId) ∧
      (st.orders.map (fun o => o.id)).Nodup := by
  induction h with
  | init => exact ⟨by simp [initialState], by simp [initialState]⟩
  | next op h ih =>
    obtain ⟨ihb, ihn⟩ := ih
    cases op with
    | addToCart u l => exact ⟨fun o ho => ihb o ho, ihn⟩
    | clearCart u? => exact ⟨fun o ho => ihb o ho, ihn⟩
    | logoutOp u => exact ⟨fun o ho => ihb o ho, ihn⟩
    | checkoutGet u now =>
      simp only [Op.step, checkout]
      split
      · exact ⟨ihb, ihn⟩
      · exact ⟨ihb, ihn⟩
    | checkoutPost u now =>
      simp only [Op.step, checkoutPostCommit]
      split
      · exact ⟨ihb, ihn⟩
      · simp only [checkout]
        split
        · exact ⟨ihb, ihn⟩
        · simp only [if_true]
          constructor
          · intro o ho
            rcases List.mem_append.mp ho with h1 | h2
            · exact Nat.lt_succ_of_lt (ihb o h1)
            · simp only [List.mem_singleton] at h2
              subst h2
              exact Nat.lt_succ_self _
          · rw [List.map_append, List.nodup_append]
            refine ⟨ihn, by simp, ?_⟩
            intro x hx hy
            simp only [List.map_cons, List.map_nil, List.mem_singleton] at hy
            subst hy
            rcases List.mem_map.mp hx with ⟨o, ho, hid⟩
            exact absurd hid (Nat.ne_of_lt (ihb o ho))
    | updateStatus u oid s now =>
      simp only [Op.step, update_order_status]
      split
      · exact ⟨ihb, ihn⟩
      · split
        · exact ⟨ihb, ihn⟩
        · split
          · exact ⟨ihb, ihn⟩
          · rename_i o hfound hguard
            have hid : ∀ p : Order,
                (if p.id == oid then
                  { o with
                    status := s
                    completed_at :=
                      if s == "已完成" then some now else o.completed_at }
                  else p).id = p.id := by
              intro p
              by_cases hc : (p.id == oid) = true
              · rw [if_pos hc]
                have hoid := List.find?_some hfound
                simp only [beq_iff_eq] at hc hoid
                simp [hoid, hc]
              · rw [if_neg hc]
            constructor
            · intro p hp
              rcases List.mem_map.mp hp with ⟨q, hq, rfl⟩
              rw [hid q]
              exact ihb q hq
            · exact nodup_map_of_id_preserved hid ihn

theorem codes_nodup_after_update {l : List Order} {q : Order} {oid : Nat}
    {s : String} {now : DateTime}
    (hfound : l.find? (fun o => o.id == oid) = some q)
    (hidn : (l.map (fun o => o.id)).Nodup)
    (hcn : (l.map (fun o => o.order_id)).Nodup) :
    ((l.map (fun p =>
      if p.id == oid then
        { q with
          status := s
          completed_at := if s == "已完成" then some now else q.completed_at }
      else p)).map (fun o => o.order_id)).Nodup := by
  have hqid := List.find?_some hfound
  have hqmem := List.mem_of_find?_eq_some hfound
  simp only [beq_iff_eq] at hqid
  have hpres : ∀ p ∈ l, ((fun o : Order => o.order_id) ∘ (fun p =>
      if p.id == oid then
        { q with
          status := s
          completed_at := if s == "已完成" then some now else q.completed_at }
      else p)) p = (fun o : Order => o.order_id) p := by
    intro p hp
    dsimp only [Function.comp]
    by_cases hc : (p.id == oid) = true
    · rw [if_pos hc]
      simp only [beq_iff_eq] at hc
      have hqp : q = p :=
        List.inj_on_of_nodup_map hidn hqmem hp (by rw [hqid, hc])
      rw [hqp]
    · rw [if_neg hc]
  rw [List.map_map, List.map_congr_left hpres]
  exact hcn

theorem reachable_codes_nodup {st : ServerState} (h : Reachable st) :
    (st.orders.map (fun o => o.order_id)).Nodup := by
  induction h with
  | init => simp [initialState]
  | next op h ih =>
    obtain ⟨ihb, ihn⟩ := reachable_ids_invariant h
    cases op with
    | addToCart u l => exact ih
    | clearCart u? => exact ih
    | logoutOp u => exact ih
    | checkoutGet u now =>
      simp only [Op.step, checkout]
      split
      · exact ih
      · exact ih
    | checkoutPost u now =>
      simp only [Op.step, checkoutPostCommit]
      split
      · exact ih
      · rename_i hcol
        simp only [checkout]
        split
        · exact ih
        · rename_i hne
          simp only [if_true]
          rw [List.map_append, List.nodup_append]
          refine ⟨ih, by simp, ?_⟩
          intro x hx hy
          simp only [List.map_cons, List.map_nil, List.mem_singleton] at hy
          subst hy
          rcases List.mem_map.mp hx with ⟨o, ho, hoid⟩
          apply hcol
          simp only [Bool.and_eq_true]
          constructor
          · simp [Bool.of_not_eq_true hne]
          · simp only [List.any_eq_true]
            exact ⟨o, ho, by simpa using hoid⟩
    | updateStatus u oid s now =>
      simp only [Op.step, update_order_status]
      split
      · exact ih
      · split
        · exact ih
        · split
          · exact ih
          · rename_i q hfound hguard
            exact codes_nodup_after_update hfound ihn ih

/-- C4: in every reachable ledger — produced by any request sequence,
including two checkouts within the same second — the orders'
`order_id` codes are pairwise distinct; no operation changes the
`order_id` of an order already in the ledger; and a POST checkout
whose generated code already exists in the ledger is rejected by the
UNIQUE constraint at commit, persisting nothing (which is how
distinctness survives a same-second collision). -/
theorem order_codes_pairwise_distinct_and_immutable
    {st : ServerState} (h : Reachable st) :
    (st.orders.map (fun o => o.order_id)).Nodup ∧
    (∀ op : Op, ∀ o ∈ st.orders,
      ∃ o' ∈ (op.step st).orders, o'.id = o.id ∧ o'.order_id = o.order_id) ∧
    (∀ (u : User) (now : DateTime),
      st.orders.any (fun o => o.order_id == strftimeYmdHMS now) = true →
      (Op.checkoutPost u now).step st = st) := by
  refine ⟨reachable_codes_nodup h, ?_, ?_⟩
  · intro op o ho
    have hnodup := (reachable_ids_invariant h).2
    cases op with
    | addToCart u l => exact ⟨o, ho, rfl, rfl⟩
    | clearCart u? => exact ⟨o, ho, rfl, rfl⟩
    | logoutOp u => exact ⟨o, ho, rfl, rfl⟩
    | checkoutGet u now =>
      simp only [Op.step, checkout]
      split
      · exact ⟨o, ho, rfl, rfl⟩
      · exact ⟨o, ho, rfl, rfl⟩
    | checkoutPost u now =>
      simp only [Op.step, checkoutPostCommit]
      split
      · exact ⟨o, ho, rfl, rfl⟩
      · simp only [checkout]
        split
        · exact ⟨o, ho, rfl, rfl⟩
        · exact ⟨o, List.mem_append_left _ ho, rfl, rfl⟩
    | updateStatus u oid s now =>
      simp only [Op.step, update_order_status]
      split
      · exact ⟨o, ho, rfl, rfl⟩
      · split
        · exact ⟨o, ho, rfl, rfl⟩
        · split
          · exact ⟨o, ho, rfl, rfl⟩
          · rename_i q hfound hguard
            refine ⟨(fun p =>
              if p.id == oid then
                { q with
                  status := s
                  completed_at :=
                    if s == "已完成" then some now else q.completed_at }
              else p) o, List.mem_map_of_mem _ ho, ?_⟩
            dsimp only
            by_cases hc : (o.id == oid) = true
            · rw [if_pos hc]
              have hqid := List.find?_some hfound
              have hqmem : q ∈ st.orders := List.mem_of_find?_eq_some hfound
              simp only [beq_iff_eq] at hc hqid
              have hoq : q = o :=
                List.inj_on_of_nodup_map hnodup hqmem ho (by rw [hqid, hc])
              subst hoq
              exact ⟨rfl, rfl⟩
            · rw [if_neg hc]
              exact ⟨rfl, rfl⟩
  · intro u now hdup
    simp only [Op.step, checkoutPostCommit]
    by_cases he : (st.cart?.getD []).isEmpty = true
    · simp [he, checkout]
    · have hf : (st.cart?.getD []).isEmpty = false := by simpa using he
      simp [hf, hdup]

theorem order_codes_pairwise_distinct_and_immutable_witness :
    (s4.orders.map (fun o => o.order_id)).Nodup ∧
      (∃ o' ∈ ((Op.updateStatus adminU 1 "已付款"
          ⟨2024, 1, 2, 3, 4, 6⟩).step s4).orders,
        o'.id = o1.id ∧ o'.order_id = o1.order_id) ∧
      s4.orders.any (fun o => o.order_id == strftimeYmdHMS t0) = true ∧
      (Op.checkoutPost alice t0).step s4 = s4 :=
  ⟨(order_codes_pairwise_distinct_and_immutable reachable_s4).1,
   (order_codes_pairwise_distinct_and_immutable reachable_s4).2.1
     (Op.updateStatus adminU 1 "已付款" ⟨2024, 1, 2, 3, 4, 6⟩) o1 (by decide),
   by decide,
   (order_codes_pairwise_distinct_and_immutable reachable_s4).2.2 alice t0
     (by decide)⟩

end Gameweb
